import Mathlib

/-!
Shallow embedding of the `pdf_to_md_fastapi` converter
(`src/app/converter/*.py`) and proofs about the claims of its
specification.

Conventions of the embedding:
* Python `float` sizes and coordinates are modelled as `Rat`; the numeric
  literals of the source (`1.8`, `1.35`, `1.15`, `0.6`) are modelled as the
  exact rationals they denote.
* Python strings are Lean `String`s; `str.strip` / `str.rstrip` /
  `str.split()` are modelled over the ASCII whitespace characters
  (space, `\t`, `\n`, `\r`, `\x0B`, `\x0C`), which is Python's whitespace
  set restricted to ASCII.
* `"sep".join(parts)` is modelled by the structurally recursive `pyJoin`.
* Data that the PyMuPDF (`fitz`) library produces for a page — text blocks,
  table candidates, decoded images, annotations, link annotations,
  drawings — is the input of the embedding (fields of `Page`); everything
  the repository's own code does with that data is translated faithfully.
-/

/-- ASCII whitespace, as stripped by Python's `str.strip`/`split`/`\s`. -/
def isPyWhitespace (c : Char) : Bool :=
  c = ' ' || c = '\t' || c = '\n' || c = '\r' || c = '\x0B' || c = '\x0C'

/-- Python `str.rstrip()` (ASCII whitespace). -/
def pyRstrip (s : String) : String :=
  String.mk ((s.toList.reverse.dropWhile isPyWhitespace).reverse)

/-- Python `str.strip()` (ASCII whitespace). -/
def pyStrip (s : String) : String :=
  String.mk (((s.toList.dropWhile isPyWhitespace).reverse.dropWhile isPyWhitespace).reverse)

/-- Python `sep.join(parts)`. -/
def pyJoin (sep : String) : List String → String
  | [] => ""
  | [s] => s
  | s :: t :: rest => s ++ sep ++ pyJoin sep (t :: rest)

/-- Python `str.split()` with no arguments: split on whitespace runs,
dropping empty pieces.  Second argument accumulates the current word,
reversed. -/
def pyWordsGo : List Char → List Char → List String
  | [], acc => if acc = [] then [] else [String.mk acc.reverse]
  | c :: cs, acc =>
    if isPyWhitespace c then
      if acc = [] then pyWordsGo cs []
      else String.mk acc.reverse :: pyWordsGo cs []
    else pyWordsGo cs (c :: acc)

def pyWords (s : String) : List String := pyWordsGo s.toList []

/-- Count of the positions of `s` at which `pat` occurs (used only with
non-empty `pat`, for which this is the number of occurrences of `pat` as a
substring, counting overlaps). -/
def countOcc (pat : List Char) : List Char → Nat
  | [] => 0
  | c :: cs => (if (c :: cs).take pat.length = pat then 1 else 0) + countOcc pat cs

-- ====================================================================
-- headings.py — HeadingDetector.detect_heading
-- ====================================================================

/-- `HeadingDetector.detect_heading(font_size, avg_size, is_bold)`:
Markdown heading prefix from the font-size ratio, `""` if no heading. -/
def detect_heading (font_size avg_size : Rat) (is_bold : Bool) : String :=
  if avg_size ≤ 0 then ""
  else
    let r := font_size / avg_size
    if (9 / 5 : Rat) ≤ r then "# "
    else if (27 / 20 : Rat) ≤ r then "## "
    else if (23 / 20 : Rat) ≤ r ∧ is_bold = true then "### "
    else ""

-- ====================================================================
-- lists.py — ListDetector
-- ====================================================================

/-- The bullet glyphs of `_BULLET_RE`'s character class. -/
def isBulletChar (c : Char) : Bool :=
  c = '•' || c = '●' || c = '○' || c = '◦' || c = '▪' || c = '▸' ||
  c = '‣' || c = '⁃' || c = '-' || c = '*' || c = '+'

/-- Anchored match of `_BULLET_RE = ^\s*[•●○◦▪▸‣⁃\-\*\+]\s+` against `cs`;
returns the characters after the match (the greedy `\s+` consumes the whole
whitespace run), or `none` if the regex does not match. -/
def matchBulletRest (cs : List Char) : Option (List Char) :=
  match cs.dropWhile isPyWhitespace with
  | [] => none
  | c :: rest2 =>
    if isBulletChar c then
      match rest2 with
      | [] => none
      | d :: _ =>
        if isPyWhitespace d then some (rest2.dropWhile isPyWhitespace) else none
    else none

/-- Anchored match of `_NUMBERED_RE = ^\s*(\d+[\.\)]\s+|[a-zA-Z][\.\)]\s+)`;
returns `(token, delimiter, rest-after-match)`.  `token` is the digit run or
the single letter.  The maximal-munch digit run is equivalent to the regex's
backtracking search because a shorter digit run is followed by a digit, which
`[\.\)]` cannot match. -/
def matchNumberedParts (cs : List Char) : Option (List Char × Char × List Char) :=
  let rest1 := cs.dropWhile isPyWhitespace
  let digits := rest1.takeWhile Char.isDigit
  if digits ≠ [] then
    match rest1.drop digits.length with
    | d :: rest2 =>
      if d = '.' || d = ')' then
        match rest2 with
        | e :: _ =>
          if isPyWhitespace e then some (digits, d, rest2.dropWhile isPyWhitespace)
          else none
        | [] => none
      else none
    | [] => none
  else
    match rest1 with
    | c :: d :: rest2 =>
      if c.isAlpha && (d = '.' || d = ')') then
        match rest2 with
        | e :: _ =>
          if isPyWhitespace e then some ([c], d, rest2.dropWhile isPyWhitespace)
          else none
        | [] => none
      else none
    | _ => none

def is_bullet_item (text : String) : Bool := (matchBulletRest text.toList).isSome

def is_numbered_item (text : String) : Bool := (matchNumberedParts text.toList).isSome

/-- `ListDetector.normalize_bullet`: `_BULLET_RE.sub("- ", text, count=1)`. -/
def normalize_bullet (text : String) : String :=
  match matchBulletRest text.toList with
  | some rest => "- " ++ String.mk rest
  | none => text

/-- `ListDetector.normalize_numbered`: keep the matched token, then
`re.sub(r"(\d+)\)", r"\1.", prefix)` — which rewrites `)` to `.` only after
a digit run — and re-join with a single space. -/
def normalize_numbered (text : String) : String :=
  match matchNumberedParts text.toList with
  | some (tok, delim, rest) =>
    let pre := String.mk tok ++
      (if delim = ')' && tok.all Char.isDigit then "." else String.mk [delim])
    pre ++ " " ++ String.mk rest
  | none => text

/-- `ListDetector.process_line`. -/
def process_line (text : String) : String :=
  if is_bullet_item text then normalize_bullet text
  else if is_numbered_item text then normalize_numbered text
  else text

-- ====================================================================
-- urls.py — URLExtractor
-- ====================================================================

/-- Characters excluded by `[^\s\)\]\>]` in `_URL_RE`. -/
def isUrlStopChar (c : Char) : Bool :=
  isPyWhitespace c || c = ')' || c = ']' || c = '>'

/-- Match of `_URL_RE = https?://[^\s\)\]\>]+` anchored at the head of `cs`;
returns `(matched, rest)`.  The greedy `s?` prefers `https://`. -/
def matchUrlAt (cs : List Char) : Option (List Char × List Char) :=
  let tryPref := fun (p : List Char) =>
    if cs.take p.length = p then
      let after := cs.drop p.length
      let run := after.takeWhile (fun c => !isUrlStopChar c)
      if run = [] then none else some (p ++ run, after.drop run.length)
    else none
  match tryPref "https://".toList with
  | some r => some r
  | none => tryPref "http://".toList

/-- Left-to-right scan of `re.sub` replacing every match `m` by `[m](m)`.
The fuel is an upper bound on the number of characters still to scan; each
step consumes at least one character, so fuel `cs.length` never runs out. -/
def replaceUrlsGo : Nat → List Char → List Char
  | 0, cs => cs
  | _ + 1, [] => []
  | fuel + 1, c :: cs =>
    match matchUrlAt (c :: cs) with
    | some (m, rest) =>
      ('[' :: m) ++ (']' :: '(' :: m) ++ (')' :: replaceUrlsGo fuel rest)
    | none => c :: replaceUrlsGo fuel cs

/-- `URLExtractor.replace_urls_in_text`. -/
def replace_urls_in_text (text : String) : String :=
  String.mk (replaceUrlsGo text.toList.length text.toList)

/-- `URLExtractor.markdown_url`. -/
def markdown_url (text url : String) : String := "[" ++ text ++ "](" ++ url ++ ")"

-- ====================================================================
-- text.py — TextFormatter
-- ====================================================================

/-- One text span as delivered by `page.get_text("dict")`. -/
structure Span where
  text : String
  size : Rat
  flags : Nat

def span_is_bold (flags : Nat) : Bool := flags &&& 16 ≠ 0

def span_is_italic (flags : Nat) : Bool := flags &&& 2 ≠ 0

/-- `TextFormatter.apply_formatting`. -/
def apply_formatting (s : Span) : String :=
  let text := pyRstrip s.text
  if text = "" then ""
  else
    let b := span_is_bold s.flags
    let i := span_is_italic s.flags
    if b && i then "***" ++ text ++ "***"
    else if b then "**" ++ text ++ "**"
    else if i then "*" ++ text ++ "*"
    else text

/-- `TextFormatter.format_line`: `(joined-nonempty-parts, max-font-size,
any-span-bold)`. -/
def format_line (spans : List Span) : String × Rat × Bool :=
  (pyJoin " " ((spans.map apply_formatting).filter (fun p => p ≠ "")),
   spans.foldl (fun m s => if m < s.size then s.size else m) 0,
   spans.any (fun s => span_is_bold s.flags))

-- ====================================================================
-- Geometry — fitz.Rect
-- ====================================================================

/-- A `fitz.Rect`. -/
structure Rect where
  x0 : Rat
  y0 : Rat
  x1 : Rat
  y1 : Rat

def Rect.width (r : Rect) : Rat := r.x1 - r.x0

def Rect.height (r : Rect) : Rat := r.y1 - r.y0

/-- `fitz.Rect.intersects`: the two rectangles share a non-empty rectangle.
(The computed intersection `(max x0, max y0, min x1, min y1)` is non-empty
exactly when both inputs are non-empty and overlap, so the source's separate
emptiness guards are subsumed; infinite rectangles do not arise here.) -/
def Rect.intersects (a b : Rect) : Bool :=
  decide (max a.x0 b.x0 < min a.x1 b.x1 ∧ max a.y0 b.y0 < min a.y1 b.y1)

-- ====================================================================
-- tables.py — TableExtractor
-- ====================================================================

/-- `TableExtractor._clean_cell`: `None`/empty to `""`, otherwise collapse
all whitespace runs (including line breaks) to single spaces. -/
def clean_cell (cell : Option String) : String :=
  match cell with
  | none => ""
  | some c => if c = "" then "" else pyJoin " " (pyWords c)

/-- `TableExtractor._to_markdown`: a 2-D grid of optional cell strings to a
Markdown pipe-table; empty grid or empty first row renders to `""`. -/
def to_markdown (table_data : List (List (Option String))) : String :=
  match table_data with
  | [] => ""
  | r0 :: rest =>
    if r0 = [] then ""
    else
      let col_count := ((r0 :: rest).map List.length).foldl max 0
      let header := r0 ++ List.replicate (col_count - r0.length) (some "")
      let body := rest.map (fun row => row ++ List.replicate (col_count - row.length) (some ""))
      pyJoin "\n"
        (("| " ++ pyJoin " | " (header.map clean_cell) ++ " |")
          :: ("| " ++ pyJoin " | " (List.replicate col_count "---") ++ " |")
          :: body.map (fun row => "| " ++ pyJoin " | " (row.map clean_cell) ++ " |"))

/-- One table candidate as found by `page.find_tables()`: the extracted cell
grid of `tab.extract()` and the table's bounding box `tab.bbox`. -/
structure TableCand where
  data : List (List (Option String))
  bbox : Rect

/-- `TableExtractor.extract_all`: `(markdown, y_position, bbox)` for every
candidate whose rendered Markdown is non-empty. -/
def table_extract_all (cands : List TableCand) : List (String × Rat × Rect) :=
  cands.filterMap (fun t =>
    let md := to_markdown t.data
    if md = "" then none else some (md, t.bbox.y0, t.bbox))

-- ====================================================================
-- images.py — ImageExtractor
-- ====================================================================

/-- One image of `page.get_images(full=True)` after the external fitz/PIL
pipeline (colour-space conversion, encoding, in-memory resize) has run:
`hasAlpha` is `base_image.alpha ≠ 0`, `imgBytes` the final bytes, `y` the
`y0` of the first placement rectangle (`0` when there is none). -/
structure DecodedImage where
  hasAlpha : Bool
  imgBytes : List Nat
  y : Rat

def image_ext (img : DecodedImage) : String := if img.hasAlpha then "png" else "jpg"

def image_mime (img : DecodedImage) : String :=
  if img.hasAlpha then "image/png" else "image/jpeg"

/-- The standard base64 alphabet. -/
def base64Chars : List Char :=
  "ABCDEFGHIJKLMNOPQRSTUVWXYZabcdefghijklmnopqrstuvwxyz0123456789+/".toList

def b64Char (n : Nat) : Char := base64Chars.getD n '?'

/-- `base64.b64encode` on a byte list (bytes are `Nat`s below 256). -/
def base64Go : List Nat → List Char
  | [] => []
  | [a] => [b64Char (a / 4), b64Char (a % 4 * 16), '=', '=']
  | [a, b] => [b64Char (a / 4), b64Char (a % 4 * 16 + b / 16), b64Char (b % 16 * 4), '=']
  | a :: b :: d :: rest =>
    b64Char (a / 4) :: b64Char (a % 4 * 16 + b / 16) ::
    b64Char (b % 16 * 4 + d / 64) :: b64Char (d % 64) :: base64Go rest

def base64Encode (bs : List Nat) : String := String.mk (base64Go bs)

/-- The Markdown emitted for one image: always the base64 data URI. -/
def image_md_ref (page_num : Nat) (img : DecodedImage) : String :=
  "![Image page " ++ toString (page_num + 1) ++ "](data:" ++ image_mime img ++
    ";base64," ++ base64Encode img.imgBytes ++ ")"

/-- The file name used when saving to disk:
`f"page{page_num + 1}_img{img_index}.{ext}"`. -/
def image_file_name (page_num : Nat) (idx : Nat) (img : DecodedImage) : String :=
  "page" ++ toString (page_num + 1) ++ "_img" ++ toString idx ++ "." ++ image_ext img

/-- The enumerated loop body of `ImageExtractor.extract_all`.  First
component: the returned `(markdown_reference, y_position)` list; second
component: the filesystem writes `(path, bytes)` performed when an output
directory is given (`os.path.join` modelled as `dir ++ "/" ++ name`). -/
def imagesGo (page_num : Nat) (odir : Option String) :
    Nat → List DecodedImage → List (String × Rat) × List (String × List Nat)
  | _, [] => ([], [])
  | idx, img :: rest =>
    let r := imagesGo page_num odir (idx + 1) rest
    ((image_md_ref page_num img, img.y) :: r.1,
     match odir with
     | some dir => (dir ++ "/" ++ image_file_name page_num idx img, img.imgBytes) :: r.2
     | none => r.2)

/-- `ImageExtractor.extract_all` (return value and filesystem writes). -/
def images_extract_all (imgs : List DecodedImage) (page_num : Nat)
    (odir : Option String) : List (String × Rat) × List (String × List Nat) :=
  imagesGo page_num odir 0 imgs

-- ====================================================================
-- annotations.py — AnnotExtractor
-- ====================================================================

/-- One annotation of `page.annots()`: its numeric subtype (`annot.type[0]`,
fitz `PDF_ANNOT_*` constants), `info["content"]`, the text under its
rectangle (`page.get_textbox(annot.rect)`), and `annot.rect.y0`. -/
structure Annot where
  subtype : Nat
  content : String
  boxText : String
  y : Rat

/-- `_TYPE_LABELS` (fitz: TEXT=0, FREE_TEXT=2, HIGHLIGHT=8, UNDERLINE=9,
STRIKE_OUT=11, STAMP=13). -/
def typeLabel (subtype : Nat) : Option String :=
  if subtype = 0 ∨ subtype = 2 then some "📝 Note"
  else if subtype = 8 then some "🔆 Highlight"
  else if subtype = 9 then some "📎 Underline"
  else if subtype = 11 then some "✂️ Strikeout"
  else if subtype = 13 then some "🔖 Stamp"
  else none

/-- `AnnotExtractor.extract_all`. -/
def annots_extract_all (annots : List Annot) : List (String × Rat) :=
  annots.filterMap (fun a =>
    match typeLabel a.subtype with
    | none => none
    | some label =>
      let c := pyStrip a.content
      let c := if c = "" ∧ a.subtype = 8 then pyStrip a.boxText else c
      if c = "" then none
      else some ("> " ++ label ++ ": " ++ c, a.y))

-- ====================================================================
-- urls.py — URLExtractor.extract_hyperlinks
-- ====================================================================

/-- One entry of `page.get_links()`: the target `uri`, the text found inside
the link rectangle (`page.get_textbox(rect)`), and the rectangle's `y0`. -/
structure Link where
  uri : String
  boxText : String
  y : Rat

/-- `URLExtractor.extract_hyperlinks`: skip entries with empty `uri`; the
display text is the stripped rectangle text, falling back to the uri. -/
def extract_hyperlinks (links : List Link) : List (String × String × Rat) :=
  links.filterMap (fun l =>
    if l.uri = "" then none
    else
      let display := pyStrip l.boxText
      let display := if display = "" then l.uri else display
      some (display, l.uri, l.y))

-- ====================================================================
-- engine.py — _process_page
-- ====================================================================

/-- A page element `(y_position, kind, content)` as collected by
`_process_page`. -/
abbrev Elem := Rat × String × String

/-- One text block of `page.get_text("dict")`: type (`0` = text), bounding
box and lines. -/
structure Line where
  spans : List Span

structure Block where
  btype : Nat
  bbox : Rect
  lines : List Line

/-- `_compute_avg_font_size`: average span size over type-0 blocks,
default `12.0`. -/
def compute_avg_font_size (blocks : List Block) : Rat :=
  let sizes := (blocks.filter (fun b => b.btype = 0)).flatMap
    (fun b => b.lines.flatMap (fun l => l.spans.map Span.size))
  if sizes = [] then 12 else sizes.sum / (sizes.length : Rat)

/-- The per-line body of `_process_page`'s text loop: skip empty span lists
and blank lines, detect a heading, normalise lists when no heading,
linearise bare URLs, and emit a `"text"` element at the block's `y0`. -/
def lineElement (avg : Rat) (block_y : Rat) (l : Line) : Option Elem :=
  match l.spans with
  | [] => none
  | _ =>
    let ft := format_line l.spans
    if pyStrip ft.1 = "" then none
    else
      let hp := detect_heading ft.2.1 avg ft.2.2
      let t1 := if hp = "" then process_line ft.1 else ft.1
      let t2 := replace_urls_in_text t1
      some (block_y, "text", hp ++ t2)

def blockTextElems (avg : Rat) (b : Block) : List Elem :=
  b.lines.filterMap (lineElement avg b.bbox.y0)

/-- The text-block loop of `_process_page`: non-text blocks are skipped, and
a block whose bounding box intersects any detected table region is skipped
entirely. -/
def textElemsGo (avg : Rat) (table_rects : List Rect) : List Block → List Elem
  | [] => []
  | b :: bs =>
    if b.btype ≠ 0 then textElemsGo avg table_rects bs
    else if table_rects.any (fun tr => b.bbox.intersects tr) then
      textElemsGo avg table_rects bs
    else blockTextElems avg b ++ textElemsGo avg table_rects bs

/-- The hyperlink loop of `_process_page`: a per-page seen-URL set (modelled
as the list of URLs added so far) filters the extracted hyperlinks. -/
def dedupLinksGo : List String → List (String × String × Rat) → List Elem
  | _, [] => []
  | seen, (display, url, y) :: rest =>
    if url ∈ seen then dedupLinksGo seen rest
    else (y, "link", markdown_url display url) :: dedupLinksGo (url :: seen) rest

/-- The drawings loop of `_process_page`: a drawing whose rectangle spans
more than 60 % of the page width with height below 5 becomes a rule. -/
def ruleElems (drawings : List Rect) (pageWidth : Rat) : List Elem :=
  drawings.filterMap (fun r =>
    if (6 / 10 : Rat) < r.width / pageWidth ∧ r.height < 5 then
      some (r.y0, "rule", "---")
    else none)

/-- Everything fitz reports for one page. -/
structure Page where
  blocks : List Block
  tableCands : List TableCand
  images : List DecodedImage
  annots : List Annot
  links : List Link
  drawings : List Rect
  width : Rat

/-- Step 1 of `_process_page`: collect all elements, in the source's order —
tables, then text, then images, then annotations, then links, then rules. -/
def collectElems (p : Page) (page_num : Nat) (odir : Option String) : List Elem :=
  let avg := compute_avg_font_size p.blocks
  let tables := table_extract_all p.tableCands
  let table_rects := tables.map (fun t => t.2.2)
  (tables.map (fun t => (t.2.1, "table", t.1)))
    ++ textElemsGo avg table_rects p.blocks
    ++ ((images_extract_all p.images page_num odir).1.map (fun r => (r.2, "image", r.1)))
    ++ ((annots_extract_all p.annots).map (fun r => (r.2, "annotation", r.1)))
    ++ dedupLinksGo [] (extract_hyperlinks p.links)
    ++ ruleElems p.drawings p.width

/-- The comparison of `elements.sort(key=lambda e: e[0])`. -/
def elemLE (a b : Elem) : Bool := decide (a.1 ≤ b.1)

/-- Step 2 of `_process_page`: the sort.  Python's `list.sort` is a stable
sort by the key; a stable sort's output is uniquely determined by it, so the
stable `List.mergeSort` models it exactly. -/
def sortElems (l : List Elem) : List Elem := l.mergeSort elemLE

/-- Number of Markdown links targeting `url` (occurrences of the closing
`](url)` part) across the contents of an element stream. -/
def linkCountFor (url : String) (els : List Elem) : Nat :=
  (els.map (fun e => countOcc ("](" ++ url ++ ")").toList e.2.2.toList)).sum

-- ====================================================================
-- engine.py / security.py / embedded.py — document level
-- ====================================================================

/-- An embedded file as reported by `doc.embfile_info`. -/
structure EmbFile where
  name : String
  size : Nat
deriving DecidableEq

/-- The document-level state the assembler consumes: encryption flags, the
authentication oracle (`doc.authenticate(p) > 0`), the permission bits and
the embedded files. -/
structure Doc where
  isEncrypted : Bool
  needsPass : Bool
  auth : String → Bool
  permissions : Nat
  embfiles : List EmbFile

/-- The two exception classes `pdf_to_markdown` raises. -/
inductive PdfFailure where
  | fileNotFound (msg : String)
  | permissionDenied (msg : String)
deriving DecidableEq

/-- The opening / security phase of `pdf_to_markdown`: the existence check,
then the encryption handling.  `Path(pdf_path).is_file()` is modelled by
`fileExists`; Python's `if password:` is true only for a supplied, non-empty
password. -/
def openDocument (pdf_path : String) (fileExists : Bool) (d : Doc)
    (password : Option String) : Except PdfFailure Doc :=
  if fileExists = false then .error (.fileNotFound ("File not found: " ++ pdf_path))
  else if d.isEncrypted then
    match password with
    | some p =>
      if p ≠ "" then
        if d.auth p then .ok d else .error (.permissionDenied "Invalid password!")
      else if d.needsPass then
        .error (.permissionDenied "PDF is password-protected. Please provide a password.")
      else .ok d
    | none =>
      if d.needsPass then
        .error (.permissionDenied "PDF is password-protected. Please provide a password.")
      else .ok d
  else .ok d

/-- Round `size * 10 / unit` to the nearest integer, ties to even — the
value printed by `f"{size / unit:.1f}"`: for the power-of-two units used the
float `size / unit` is exact (for sizes below `2^53`), and CPython formats
floats by correct rounding with ties to even, so a decimal midpoint such as
`1280 / 1024 = 1.25` prints as `1.2`. -/
def sizeTenths (size unit : Nat) : Nat :=
  let q := size * 10 / unit
  let r := size * 10 % unit
  if 2 * r < unit then q
  else if unit < 2 * r then q + 1
  else if q % 2 = 0 then q else q + 1

def formatTenths (t : Nat) : String := toString (t / 10) ++ "." ++ toString (t % 10)

/-- The size formatting of `EmbeddedFileExtractor.extract`: binary MB / KB
thresholds, else plain bytes. -/
def sizeStr (size : Nat) : String :=
  if 1024 * 1024 ≤ size then formatTenths (sizeTenths size (1024 * 1024)) ++ " MB"
  else if 1024 ≤ size then formatTenths (sizeTenths size 1024) ++ " KB"
  else toString size ++ " B"

/-- `EmbeddedFileExtractor.extract`: a Markdown section listing the embedded
files, `""` when there are none. -/
def embfile_extract (files : List EmbFile) : String :=
  if files.length = 0 then ""
  else
    pyJoin "\n"
      ("\n## 📎 Embedded Files\n"
        :: files.map (fun f => "- **" ++ f.name ++ "** (" ++ sizeStr f.size ++ ")")
        ++ [""])

/-- `SecurityHandler.get_permissions_info` (fitz: `PDF_PERM_PRINT = 4`,
`PDF_PERM_MODIFY = 8`, `PDF_PERM_COPY = 16`). -/
def get_permissions_info (d : Doc) : String :=
  if d.isEncrypted = false then ""
  else
    pyJoin "\n"
      ["\n## 🔐 Security Info\n",
       "- **Encrypted:** Yes",
       "- **Can Print:** " ++ (if d.permissions &&& 4 ≠ 0 then "Yes" else "No"),
       "- **Can Copy:** " ++ (if d.permissions &&& 16 ≠ 0 then "Yes" else "No"),
       "- **Can Modify:** " ++ (if d.permissions &&& 8 ≠ 0 then "Yes" else "No"),
       ""]

/-- The tail of `pdf_to_markdown`: append the embedded-file section if it is
non-empty, then the security section if it is non-empty. -/
def assembleTail (parts : List String) (d : Doc) : List String :=
  let parts1 :=
    if embfile_extract d.embfiles ≠ "" then parts ++ [embfile_extract d.embfiles]
    else parts
  if get_permissions_info d ≠ "" then parts1 ++ [get_permissions_info d] else parts1

-- ====================================================================
-- Theorems
-- ====================================================================

/-- C5: `detect_heading` is a pure function of `(fontSize, avgSize, bold)`:
a non-positive average yields no prefix; otherwise, with
`r = fontSize / avgSize` and the rules tried in priority order (first match
wins), `r ≥ 1.8` yields `"# "` regardless of boldness, else `r ≥ 1.35`
yields `"## "`, else `r ≥ 1.15` with `bold = true` yields `"### "`, else no
prefix; in particular ratio exactly `1.8` yields `"# "`, ratio `1.16` with
`bold = false` yields no heading, and ratio `1.16` with `bold = true`
yields `"### "`. -/
theorem detect_heading_policy :
    (∀ (fs avg : Rat) (b : Bool), avg ≤ 0 → detect_heading fs avg b = "") ∧
    (∀ (fs avg : Rat) (b : Bool), 0 < avg → (9 / 5 : Rat) ≤ fs / avg →
      detect_heading fs avg b = "# ") ∧
    (∀ (fs avg : Rat) (b : Bool), 0 < avg → fs / avg < 9 / 5 →
      (27 / 20 : Rat) ≤ fs / avg → detect_heading fs avg b = "## ") ∧
    (∀ (fs avg : Rat), 0 < avg → fs / avg < 27 / 20 →
      (23 / 20 : Rat) ≤ fs / avg → detect_heading fs avg true = "### ") ∧
    (∀ (fs avg : Rat) (b : Bool), 0 < avg → fs / avg < 23 / 20 →
      detect_heading fs avg b = "") ∧
    (∀ (fs avg : Rat), 0 < avg → fs / avg < 27 / 20 →
      detect_heading fs avg false = "") ∧
    detect_heading (9 / 5) 1 false = "# " ∧
    detect_heading (29 / 25) 1 false = "" ∧
    detect_heading (29 / 25) 1 true = "### " := by
  refine ⟨?_, ?_, ?_, ?_, ?_, ?_, ?_, ?_, ?_⟩
  · intro fs avg b h
    simp [detect_heading, h]
  · intro fs avg b h1 h2
    simp [detect_heading, not_le.mpr h1, h2]
  · intro fs avg b h1 h2 h3
    simp [detect_heading, not_le.mpr h1, not_le.mpr h2, h3]
  · intro fs avg h1 h2 h3
    have h95 : fs / avg < 9 / 5 := lt_of_lt_of_le h2 (by norm_num)
    simp [detect_heading, not_le.mpr h1, not_le.mpr h95, not_le.mpr h2, h3]
  · intro fs avg b h1 h2
    have h95 : fs / avg < 9 / 5 := lt_of_lt_of_le h2 (by norm_num)
    have h135 : fs / avg < 27 / 20 := lt_of_lt_of_le h2 (by norm_num)
    simp [detect_heading, not_le.mpr h1, not_le.mpr h95, not_le.mpr h135, not_le.mpr h2]
  · intro fs avg h1 h2
    have h95 : fs / avg < 9 / 5 := lt_of_lt_of_le h2 (by norm_num)
    simp [detect_heading, not_le.mpr h1, not_le.mpr h95, not_le.mpr h2]
  · norm_num [detect_heading]
  · norm_num [detect_heading]
  · norm_num [detect_heading]

/-- C5 witness: the `r ≥ 1.8` rule applied at ratio exactly `1.8`. -/
theorem detect_heading_policy_witness :
    (0 : Rat) < 1 ∧ (9 / 5 : Rat) ≤ (9 / 5 : Rat) / 1 ∧
      detect_heading (9 / 5) 1 false = "# " :=
  ⟨by norm_num, by norm_num,
   detect_heading_policy.2.1 (9 / 5) 1 false (by norm_num) (by norm_num)⟩

/-- C7 counterexample: the claim says `a) item` is canonicalised to
`a. item`, but `re.sub(r"(\d+)\)", r"\1.", "a)")` only rewrites `)` after a
digit run, so the letter ordinal keeps its `)` delimiter. -/
theorem process_line_letter_ordinal_counterexample :
    process_line "a) item" = "a) item" ∧ process_line "a) item" ≠ "a. item" := by
  decide

theorem toList_mk (l : List Char) : (String.mk l).toList = l := rfl

theorem bulletChar_not_ws {c : Char} (h : isBulletChar c = true) :
    isPyWhitespace c = false := by
  simp only [isBulletChar, Bool.or_eq_true, decide_eq_true_eq, or_assoc] at h
  rcases h with rfl | rfl | rfl | rfl | rfl | rfl | rfl | rfl | rfl | rfl | rfl <;> decide

theorem digit_not_ws {c : Char} (h : c.isDigit = true) : isPyWhitespace c = false := by
  cases hw : isPyWhitespace c
  · rfl
  · simp only [isPyWhitespace, Bool.or_eq_true, decide_eq_true_eq, or_assoc] at hw
    rcases hw with rfl | rfl | rfl | rfl | rfl | rfl <;> simp at h

theorem digit_not_bullet {c : Char} (h : c.isDigit = true) : isBulletChar c = false := by
  cases hb : isBulletChar c
  · rfl
  · simp only [isBulletChar, Bool.or_eq_true, decide_eq_true_eq, or_assoc] at hb
    rcases hb with rfl | rfl | rfl | rfl | rfl | rfl | rfl | rfl | rfl | rfl | rfl <;> simp at h

theorem alpha_not_ws {c : Char} (h : c.isAlpha = true) : isPyWhitespace c = false := by
  cases hw : isPyWhitespace c
  · rfl
  · simp only [isPyWhitespace, Bool.or_eq_true, decide_eq_true_eq, or_assoc] at hw
    rcases hw with rfl | rfl | rfl | rfl | rfl | rfl <;> simp at h

theorem alpha_not_bullet {c : Char} (h : c.isAlpha = true) : isBulletChar c = false := by
  cases hb : isBulletChar c
  · rfl
  · simp only [isBulletChar, Bool.or_eq_true, decide_eq_true_eq, or_assoc] at hb
    rcases hb with rfl | rfl | rfl | rfl | rfl | rfl | rfl | rfl | rfl | rfl | rfl <;> simp at h

theorem alpha_not_digit {c : Char} (h : c.isAlpha = true) : c.isDigit = false := by
  by_contra hd
  simp only [Bool.not_eq_false, Char.isDigit, Bool.and_eq_true, decide_eq_true_eq] at hd
  simp only [Char.isAlpha, Char.isUpper, Char.isLower, Bool.or_eq_true,
    Bool.and_eq_true, decide_eq_true_eq] at h
  rcases h with ⟨h1, h2⟩ | ⟨h1, h2⟩
  · exact absurd (UInt32.le_trans h1 hd.2) (by decide)
  · exact absurd (UInt32.le_trans h1 hd.2) (by decide)

/-- Dropping a whitespace run reaches past any all-whitespace prefix. -/
theorem dropWhile_append_all (p : Char → Bool) :
    ∀ (l rest : List Char), (∀ c ∈ l, p c = true) →
      (l ++ rest).dropWhile p = rest.dropWhile p := by
  intro l
  induction l with
  | nil => intro rest _; rfl
  | cons c l ih =>
    intro rest h
    rw [List.cons_append, List.dropWhile_cons, if_pos (h c (List.mem_cons_self c l))]
    exact ih rest (fun d hd => h d (List.mem_cons_of_mem c hd))

/-- A maximal satisfying run followed by a failing character is what
`takeWhile` returns. -/
theorem takeWhile_append_stop (p : Char → Bool) :
    ∀ (l : List Char) (d : Char) (rest : List Char),
      (∀ c ∈ l, p c = true) → p d = false →
      (l ++ d :: rest).takeWhile p = l := by
  intro l
  induction l with
  | nil =>
    intro d rest _ hd
    simp [List.takeWhile_cons, hd]
  | cons c l ih =>
    intro d rest h hd
    rw [List.cons_append, List.takeWhile_cons, if_pos (h c (List.mem_cons_self c l)),
      ih d rest (fun e he => h e (List.mem_cons_of_mem c he)) hd]

/-- `_BULLET_RE` matches any line of the shape
whitespace*, bullet glyph, whitespace, remainder. -/
theorem matchBulletRest_shape (g : Char) (lead : List Char) (w : Char)
    (rest : List Char) (hg : isBulletChar g = true)
    (hlead : ∀ c ∈ lead, isPyWhitespace c = true) (hw : isPyWhitespace w = true) :
    matchBulletRest (lead ++ g :: w :: rest) = some (rest.dropWhile isPyWhitespace) := by
  have h1 : (lead ++ g :: w :: rest).dropWhile isPyWhitespace = g :: w :: rest := by
    rw [dropWhile_append_all _ lead _ hlead, List.dropWhile_cons,
      if_neg (by simp [bulletChar_not_ws hg])]
  simp only [matchBulletRest, h1]
  simp [hg, hw, List.dropWhile_cons]

theorem matchBulletRest_none_of_head (cs : List Char) (c : Char) (rest : List Char)
    (h : cs.dropWhile isPyWhitespace = c :: rest) (hc : isBulletChar c = false) :
    matchBulletRest cs = none := by
  simp only [matchBulletRest, h]
  simp [hc]

theorem matchBulletRest_none_of_blank (cs : List Char)
    (h : cs.dropWhile isPyWhitespace = []) : matchBulletRest cs = none := by
  simp [matchBulletRest, h]

/-- The digit alternative of `_NUMBERED_RE` matches any line of the shape
whitespace*, digit run, `.` or `)`, whitespace, remainder. -/
theorem matchNumberedParts_digit_shape (ds : List Char) (delim : Char)
    (lead : List Char) (w : Char) (rest : List Char) (hds : ds ≠ [])
    (hdig : ∀ c ∈ ds, c.isDigit = true) (hdelim : delim = '.' ∨ delim = ')')
    (hlead : ∀ c ∈ lead, isPyWhitespace c = true) (hw : isPyWhitespace w = true) :
    matchNumberedParts (lead ++ ds ++ delim :: w :: rest) =
      some (ds, delim, rest.dropWhile isPyWhitespace) := by
  have hdd : delim.isDigit = false := by rcases hdelim with rfl | rfl <;> decide
  have h1 : (lead ++ ds ++ delim :: w :: rest).dropWhile isPyWhitespace =
      ds ++ delim :: w :: rest := by
    rw [List.append_assoc, dropWhile_append_all _ lead _ hlead]
    cases ds with
    | nil => exact absurd rfl hds
    | cons d0 ds2 =>
      rw [List.cons_append, List.dropWhile_cons,
        if_neg (by simp [digit_not_ws (hdig d0 (List.mem_cons_self d0 ds2))])]
  have h2 : (ds ++ delim :: w :: rest).takeWhile Char.isDigit = ds :=
    takeWhile_append_stop _ ds delim _ hdig hdd
  have h3 : (ds ++ delim :: w :: rest).drop ds.length = delim :: w :: rest :=
    List.drop_left ds _
  have hdelim2 : (delim = '.' || delim = ')') = true := by
    rcases hdelim with rfl | rfl <;> decide
  simp only [matchNumberedParts, h1, h2, h3]
  rw [if_pos hds]
  simp [hdelim2, hw, List.dropWhile_cons]

/-- The letter alternative of `_NUMBERED_RE` matches any line of the shape
whitespace*, letter, `.` or `)`, whitespace, remainder. -/
theorem matchNumberedParts_letter_shape (c : Char) (delim : Char)
    (lead : List Char) (w : Char) (rest : List Char) (hc : c.isAlpha = true)
    (hdelim : delim = '.' ∨ delim = ')')
    (hlead : ∀ ch ∈ lead, isPyWhitespace ch = true) (hw : isPyWhitespace w = true) :
    matchNumberedParts (lead ++ c :: delim :: w :: rest) =
      some ([c], delim, rest.dropWhile isPyWhitespace) := by
  have h1 : (lead ++ c :: delim :: w :: rest).dropWhile isPyWhitespace =
      c :: delim :: w :: rest := by
    rw [dropWhile_append_all _ lead _ hlead, List.dropWhile_cons,
      if_neg (by simp [alpha_not_ws hc])]
  have h2 : (c :: delim :: w :: rest).takeWhile Char.isDigit = [] := by
    rw [List.takeWhile_cons, if_neg (by simp [alpha_not_digit hc])]
  have hdelim2 : (delim = '.' || delim = ')') = true := by
    rcases hdelim with rfl | rfl <;> decide
  simp only [matchNumberedParts, h1, h2]
  rw [if_neg (by simp)]
  simp [hc, hdelim2, hw, List.dropWhile_cons]

theorem matchNumberedParts_none_of_head (cs : List Char) (c : Char)
    (rest : List Char) (h : cs.dropWhile isPyWhitespace = c :: rest)
    (hdig : c.isDigit = false) (halpha : c.isAlpha = false) :
    matchNumberedParts cs = none := by
  have h2 : (c :: rest).takeWhile Char.isDigit = [] := by
    rw [List.takeWhile_cons, if_neg (by simp [hdig])]
  simp only [matchNumberedParts, h, h2]
  rw [if_neg (by simp)]
  cases rest with
  | nil => rfl
  | cons d rest2 => simp [halpha]

theorem matchNumberedParts_none_of_blank (cs : List Char)
    (h : cs.dropWhile isPyWhitespace = []) : matchNumberedParts cs = none := by
  simp only [matchNumberedParts, h, List.takeWhile_nil]
  rw [if_neg (by simp)]

/-- C7 (amended): `process_line` rewrites any line of the shape
whitespace*, bullet glyph, whitespace, remainder to `"- "` plus the
remainder; any decimal ordinal (every non-empty digit run, either
delimiter) keeps its literal digits and canonicalises the delimiter to `.`;
any single-letter ordinal keeps its literal delimiter unchanged (`a) item`
stays `a) item`); any line that is blank after leading whitespace, or whose
first non-whitespace character is no bullet glyph, digit or ASCII letter,
passes through unmodified; and already-canonical lines such as `- item` and
`1. item` are fixed points. -/
theorem process_line_amended_spec :
    (∀ (g : Char), isBulletChar g = true →
      ∀ (lead : List Char), (∀ c ∈ lead, isPyWhitespace c = true) →
      ∀ (w : Char), isPyWhitespace w = true →
      ∀ (rest : List Char),
        process_line (String.mk (lead ++ g :: w :: rest)) =
          "- " ++ String.mk (rest.dropWhile isPyWhitespace)) ∧
    (∀ (ds : List Char), ds ≠ [] → (∀ c ∈ ds, c.isDigit = true) →
      ∀ (delim : Char), delim = '.' ∨ delim = ')' →
      ∀ (lead : List Char), (∀ c ∈ lead, isPyWhitespace c = true) →
      ∀ (w : Char), isPyWhitespace w = true →
      ∀ (rest : List Char),
        process_line (String.mk (lead ++ ds ++ delim :: w :: rest)) =
          String.mk (ds ++ '.' :: ' ' :: rest.dropWhile isPyWhitespace)) ∧
    (∀ (c : Char), c.isAlpha = true →
      ∀ (delim : Char), delim = '.' ∨ delim = ')' →
      ∀ (lead : List Char), (∀ ch ∈ lead, isPyWhitespace ch = true) →
      ∀ (w : Char), isPyWhitespace w = true →
      ∀ (rest : List Char),
        process_line (String.mk (lead ++ c :: delim :: w :: rest)) =
          String.mk (c :: delim :: ' ' :: rest.dropWhile isPyWhitespace)) ∧
    (∀ (s : String), s.toList.dropWhile isPyWhitespace = [] → process_line s = s) ∧
    (∀ (s : String) (c : Char) (rest : List Char),
      s.toList.dropWhile isPyWhitespace = c :: rest →
      isBulletChar c = false → c.isDigit = false → c.isAlpha = false →
      process_line s = s) ∧
    process_line "- item" = "- item" ∧
    process_line "1. item" = "1. item" ∧
    process_line "1) item" = "1. item" ∧
    process_line "a. item" = "a. item" ∧
    process_line "hello world" = "hello world" := by
  refine ⟨?_, ?_, ?_, ?_, ?_, by decide, by decide, by decide, by decide, by decide⟩
  · intro g hg lead hlead w hw rest
    have hm := matchBulletRest_shape g lead w rest hg hlead hw
    simp [process_line, is_bullet_item, normalize_bullet, toList_mk, hm]
  · intro ds hds hdig delim hdelim lead hlead w hw rest
    have hmN := matchNumberedParts_digit_shape ds delim lead w rest hds hdig hdelim hlead hw
    have hd0 : ∃ d0 ds2, ds = d0 :: ds2 := by
      cases ds with
      | nil => exact absurd rfl hds
      | cons d0 ds2 => exact ⟨d0, ds2, rfl⟩
    obtain ⟨d0, ds2, rfl⟩ := hd0
    have h1 : (lead ++ (d0 :: ds2) ++ delim :: w :: rest).dropWhile isPyWhitespace =
        d0 :: (ds2 ++ delim :: w :: rest) := by
      rw [List.append_assoc, dropWhile_append_all _ lead _ hlead, List.cons_append,
        List.dropWhile_cons,
        if_neg (by simp [digit_not_ws (hdig d0 (List.mem_cons_self d0 ds2))])]
    have hmB := matchBulletRest_none_of_head _ _ _ h1
      (digit_not_bullet (hdig d0 (List.mem_cons_self d0 ds2)))
    have hall : (d0 :: ds2).all Char.isDigit = true := List.all_eq_true.mpr hdig
    simp only [process_line, is_bullet_item, toList_mk, hmB, Option.isSome_none,
      Bool.false_eq_true, if_false, is_numbered_item, hmN, Option.isSome_some,
      if_true, normalize_numbered]
    rcases hdelim with rfl | rfl
    · rw [if_neg (by simp)]
      apply String.ext
      simp [String.data_append]
    · rw [if_pos (by simp [hall])]
      apply String.ext
      simp [String.data_append]
  · intro c hc delim hdelim lead hlead w hw rest
    have hmN := matchNumberedParts_letter_shape c delim lead w rest hc hdelim hlead hw
    have h1 : (lead ++ c :: delim :: w :: rest).dropWhile isPyWhitespace =
        c :: delim :: w :: rest := by
      rw [dropWhile_append_all _ lead _ hlead, List.dropWhile_cons,
        if_neg (by simp [alpha_not_ws hc])]
    have hmB := matchBulletRest_none_of_head _ _ _ h1 (alpha_not_bullet hc)
    simp only [process_line, is_bullet_item, toList_mk, hmB, Option.isSome_none,
      Bool.false_eq_true, if_false, is_numbered_item, hmN, Option.isSome_some,
      if_true, normalize_numbered]
    rw [if_neg (by simp [alpha_not_digit hc])]
    apply String.ext
    simp [String.data_append]
  · intro s h
    have hB := matchBulletRest_none_of_blank s.data h
    have hN := matchNumberedParts_none_of_blank s.data h
    simp [process_line, is_bullet_item, is_numbered_item, hB, hN]
  · intro s c rest h hbullet hdig halpha
    have hB := matchBulletRest_none_of_head s.data c rest h hbullet
    have hN := matchNumberedParts_none_of_head s.data c rest h hdig halpha
    simp [process_line, is_bullet_item, is_numbered_item, hB, hN]

/-- C2: the opening phase of `pdf_to_markdown` reports exactly two failure
kinds: not-found when the path does not resolve to an existing file, and
access-denied (a `PermissionError`) when the document is encrypted and the
supplied password fails authentication, or no (or an empty) password is
supplied while authentication is required; once the file exists, every
failure is access-denied — in particular an encrypted password-required
document opened with no password signals access-denied, not a generic
failure. -/
theorem pdf_to_markdown_failure_spec :
    (∀ (path : String) (d : Doc) (pw : Option String),
      openDocument path false d pw =
        .error (.fileNotFound ("File not found: " ++ path))) ∧
    (∀ (path : String) (d : Doc) (pw : Option String),
      d.isEncrypted = false → openDocument path true d pw = .ok d) ∧
    (∀ (path : String) (d : Doc) (p : String),
      d.isEncrypted = true → p ≠ "" → d.auth p = false →
        openDocument path true d (some p) =
          .error (.permissionDenied "Invalid password!")) ∧
    (∀ (path : String) (d : Doc),
      d.isEncrypted = true → d.needsPass = true →
        openDocument path true d none =
          .error (.permissionDenied
            "PDF is password-protected. Please provide a password.")) ∧
    (∀ (path : String) (d : Doc) (pw : Option String) (e : PdfFailure),
      openDocument path true d pw = .error e → ∃ m, e = .permissionDenied m) := by
  refine ⟨?_, ?_, ?_, ?_, ?_⟩
  · intro path d pw
    simp [openDocument]
  · intro path d pw h
    simp [openDocument, h]
  · intro path d p h1 h2 h3
    simp [openDocument, h1, h2, h3]
  · intro path d h1 h2
    simp [openDocument, h1, h2]
  · intro path d pw e h
    cases pw <;> simp only [openDocument] at h <;> split_ifs at h <;>
      (first | exact ⟨_, (Except.error.inj h).symm⟩ | simp_all)

/-- C2 witness: an encrypted, password-required document opened with no
password yields the access-denied error. -/
def docLocked : Doc := ⟨true, true, fun _ => false, 0, []⟩

theorem pdf_to_markdown_failure_witness :
    docLocked.isEncrypted = true ∧ docLocked.needsPass = true ∧
      openDocument "a.pdf" true docLocked none =
        .error (.permissionDenied
          "PDF is password-protected. Please provide a password.") :=
  ⟨rfl, rfl, pdf_to_markdown_failure_spec.2.2.2.1 "a.pdf" docLocked rfl rfl⟩

/-- A join of at least two pieces is non-empty when the first piece is. -/
theorem pyJoin_cons_cons_ne_empty (sep s t : String) (rest : List String)
    (hs : s.length ≠ 0) : pyJoin sep (s :: t :: rest) ≠ "" := by
  intro h
  have hl := congrArg String.length h
  simp only [pyJoin, String.length_append] at hl
  simp at hl
  omega

/-- The embedded-file section is non-empty whenever there is at least one
embedded file. -/
theorem embfile_extract_ne_empty (f : EmbFile) (fs : List EmbFile) :
    embfile_extract (f :: fs) ≠ "" := by
  simp only [embfile_extract, List.length_cons, List.map_cons, List.cons_append]
  rw [if_neg (by omega)]
  exact pyJoin_cons_cons_ne_empty _ _ _ _ (by decide)

/-- The security section is non-empty exactly on encrypted documents. -/
theorem get_permissions_info_ne_empty (d : Doc) (h : d.isEncrypted = true) :
    get_permissions_info d ≠ "" := by
  simp only [get_permissions_info, h]
  rw [if_neg (by simp)]
  exact pyJoin_cons_cons_ne_empty _ _ _ _ (by decide)

/-- C9 counterexample: an unencrypted document with one embedded file still
gets the embedded-file listing appended, so "neither trailing section is
appended for an unencrypted document" fails. -/
def docC9 : Doc := ⟨false, false, fun _ => false, 0, [⟨"a.txt", 10⟩]⟩

theorem assemble_tail_counterexample :
    docC9.isEncrypted = false ∧
      assembleTail [] docC9 = ["\n## 📎 Embedded Files\n\n- **a.txt** (10 B)\n"] ∧
      assembleTail [] docC9 ≠ [] := by
  refine ⟨rfl, rfl, by decide⟩

/-- C9 (amended): the assembler appends the embedded-file listing (name plus
human-readable size with binary KB/MB thresholds) whenever the document has
at least one embedded file, regardless of encryption, and appends the
permissions summary (print/copy/modify flags) exactly when the document is
encrypted; an unencrypted document with no embedded files gets neither
trailing section.  The concrete `sizeStr` conjuncts pin the size formatting,
including the ties-to-even rounding of `.1f` (1280 B → `1.2 KB`,
1792 B → `1.8 KB`, 1280 KiB → `1.2 MB`). -/
theorem assemble_tail_amended_spec :
    (∀ (parts : List String) (d : Doc),
      assembleTail parts d =
        parts ++ (if d.embfiles = [] then [] else [embfile_extract d.embfiles])
              ++ (if d.isEncrypted = true then [get_permissions_info d] else [])) ∧
    sizeStr 10 = "10 B" ∧
    sizeStr 1536 = "1.5 KB" ∧
    sizeStr 1280 = "1.2 KB" ∧
    sizeStr 1792 = "1.8 KB" ∧
    sizeStr 1310720 = "1.2 MB" := by
  refine ⟨?_, by decide, by decide, by decide, by decide, by decide⟩
  intro parts d
  cases hf : d.embfiles with
  | nil =>
    cases he : d.isEncrypted with
    | false => simp [assembleTail, hf, he, embfile_extract, get_permissions_info]
    | true =>
      have h2 := get_permissions_info_ne_empty d he
      simp [assembleTail, hf, he, embfile_extract, h2]
  | cons f fs =>
    have h1 := embfile_extract_ne_empty f fs
    cases he : d.isEncrypted with
    | false => simp [assembleTail, hf, he, h1, get_permissions_info]
    | true =>
      have h2 := get_permissions_info_ne_empty d he
      simp [assembleTail, hf, he, h1, h2]

/-- Python's `enumerate(xs, start=i)`. -/
def enumFrom {α : Type} : Nat → List α → List (Nat × α)
  | _, [] => []
  | i, a :: as => (i, a) :: enumFrom (i + 1) as

/-- The image loop, fully characterised: returned references and performed
writes, for an arbitrary starting index. -/
theorem imagesGo_spec (n : Nat) (dir : String) :
    ∀ (imgs : List DecodedImage) (i : Nat),
      imagesGo n (some dir) i imgs =
        (imgs.map (fun img => (image_md_ref n img, img.y)),
         (enumFrom i imgs).map (fun p =>
           (dir ++ "/" ++ image_file_name n p.1 p.2, p.2.imgBytes))) := by
  intro imgs
  induction imgs with
  | nil => intro i; rfl
  | cons img rest ih => intro i; simp [imagesGo, enumFrom, ih (i + 1)]

/-- C8 counterexample: in file-backed mode the file is named
`page1_img0.png` — not `page_1_img_0.png` — and the emitted Markdown is the
base64 data URI, which never mentions the output directory. -/
def imgC8 : DecodedImage := ⟨true, [1, 2, 3], 10⟩

theorem images_file_mode_counterexample :
    ((images_extract_all [imgC8] 0 (some "imgs")).2.map Prod.fst =
      ["imgs/page1_img0.png"]) ∧
    ("imgs/page1_img0.png" : String) ≠ "imgs/page_1_img_0.png" ∧
    ((images_extract_all [imgC8] 0 (some "imgs")).1.map Prod.fst =
      ["![Image page 1](data:image/png;base64,AQID)"]) ∧
    countOcc "imgs/".toList "![Image page 1](data:image/png;base64,AQID)".toList = 0 := by
  decide

/-- C8 (amended): in file-backed mode each successfully decoded image's
bytes are written under the caller-supplied directory with the naming scheme
`page{n}_img{i}.{ext}` (`n` the 1-based page number, `i` the 0-based image
index, no underscore before the numbers), while the emitted Markdown still
embeds the base64 data URI — the saved files are not referenced. -/
theorem images_file_mode_amended_spec :
    ∀ (imgs : List DecodedImage) (n : Nat) (dir : String),
      (images_extract_all imgs n (some dir)).2 =
        (enumFrom 0 imgs).map (fun p =>
          (dir ++ "/" ++ image_file_name n p.1 p.2, p.2.imgBytes)) ∧
      (images_extract_all imgs n (some dir)).1 =
        imgs.map (fun img => (image_md_ref n img, img.y)) ∧
      (∀ (i : Nat) (img : DecodedImage), image_file_name n i img =
        "page" ++ toString (n + 1) ++ "_img" ++ toString i ++ "." ++ image_ext img) ∧
      (∀ img : DecodedImage, image_md_ref n img =
        "![Image page " ++ toString (n + 1) ++ "](data:" ++ image_mime img ++
          ";base64," ++ base64Encode img.imgBytes ++ ")") := by
  intro imgs n dir
  refine ⟨?_, ?_, fun i img => rfl, fun img => rfl⟩
  · rw [images_extract_all, imagesGo_spec]
  · rw [images_extract_all, imagesGo_spec]

/-- Modelled from the claim's words, for the refinement statement of C6: pad
every row to the grid's maximum column count with empty cells; the output is
a header row, a separator row of `---` repeated per column, then the
remaining rows, each row's cleaned cells joined by `" | "` and wrapped in
leading/trailing pipes; a grid with zero rows or an empty first row renders
to the empty string. -/
def specTableMarkdown (grid : List (List (Option String))) : String :=
  match grid with
  | [] => ""
  | r0 :: rest =>
    if r0 = [] then ""
    else
      let colCount := ((r0 :: rest).map List.length).foldl max 0
      let renderRow := fun (row : List (Option String)) =>
        "| " ++ pyJoin " | "
          ((row ++ List.replicate (colCount - row.length) (some "")).map clean_cell) ++ " |"
      pyJoin "\n"
        (renderRow r0
          :: ("| " ++ pyJoin " | " (List.replicate colCount "---") ++ " |")
          :: rest.map renderRow)

/-- C6: `_to_markdown` renders any 2-D grid of optional cell strings as the
claim describes (padding to the maximum column count, header / separator /
body rows, whitespace-collapsed cells, empty grid or empty first row to the
empty string); a table whose Markdown is empty produces no Element; and the
2×2 grid `[["A","B"],["1","2"]]` renders exactly the three pipe-table
lines. -/
theorem to_markdown_table_spec :
    (∀ grid, to_markdown grid = specTableMarkdown grid) ∧
    to_markdown [] = "" ∧
    (∀ rows, to_markdown ([] :: rows) = "") ∧
    to_markdown [[some "A", some "B"], [some "1", some "2"]] =
      "| A | B |\n| --- | --- |\n| 1 | 2 |" ∧
    to_markdown [[some "A"], [some "1", some "2"]] =
      "| A |  |\n| --- | --- |\n| 1 | 2 |" ∧
    to_markdown [[some "a\nb  c"]] = "| a b c |\n| --- |" ∧
    (∀ r : Rect, table_extract_all [⟨[], r⟩] = []) ∧
    (∀ (r : Rect) (rows : List (List (Option String))),
      table_extract_all [⟨[] :: rows, r⟩] = []) := by
  refine ⟨?_, rfl, fun rows => rfl, by decide, by decide, by decide, ?_, ?_⟩
  · intro grid
    match grid with
    | [] => rfl
    | r0 :: rest =>
      by_cases h : r0 = []
      · simp [to_markdown, specTableMarkdown, h]
      · simp [to_markdown, specTableMarkdown, h, List.map_map, Function.comp_def]
  · intro r
    simp [table_extract_all, to_markdown]
  · intro r rows
    simp [table_extract_all, to_markdown]

/-- C4: table suppression is total and at block granularity — the text pass
emits exactly the lines of the type-0 blocks whose bounding box intersects
no detected table region; a block that intersects one contributes no line at
all (never a partial subset of its lines). -/
theorem process_page_table_suppression_total :
    ∀ (avg : Rat) (rects : List Rect) (blocks : List Block),
      textElemsGo avg rects blocks =
        (blocks.filter (fun b =>
          b.btype == 0 && !(rects.any (fun tr => b.bbox.intersects tr)))).flatMap
          (blockTextElems avg) := by
  intro avg rects blocks
  induction blocks with
  | nil => rfl
  | cons b bs ih =>
    by_cases h0 : b.btype = 0
    · by_cases h1 : (rects.any (fun tr => b.bbox.intersects tr)) = true
      · simp [textElemsGo, h0, h1, ih]
      · simp [textElemsGo, h0, h1, ih]
    · simp [textElemsGo, h0, ih]

/-- The sublist of hyperlink-pass inputs actually kept by the seen-URL set:
the first occurrence of every URL not already in `seen`. -/
def dedupKeptGo : List String → List (String × String × Rat) → List (String × String × Rat)
  | _, [] => []
  | seen, (display, url, y) :: rest =>
    if url ∈ seen then dedupKeptGo seen rest
    else (display, url, y) :: dedupKeptGo (url :: seen) rest

theorem dedupLinksGo_eq_map :
    ∀ (ls : List (String × String × Rat)) (seen : List String),
      dedupLinksGo seen ls =
        (dedupKeptGo seen ls).map (fun t => (t.2.2, "link", markdown_url t.1 t.2.1)) := by
  intro ls
  induction ls with
  | nil => intro seen; rfl
  | cons a rest ih =>
    intro seen
    obtain ⟨d, u, y⟩ := a
    by_cases h : u ∈ seen
    · simp [dedupLinksGo, dedupKeptGo, h, ih]
    · simp [dedupLinksGo, dedupKeptGo, h, ih]

theorem dedupKeptGo_urls_nodup :
    ∀ (ls : List (String × String × Rat)) (seen : List String),
      ((dedupKeptGo seen ls).map (fun t => t.2.1)).Nodup ∧
      ∀ u ∈ (dedupKeptGo seen ls).map (fun t => t.2.1), u ∉ seen := by
  intro ls
  induction ls with
  | nil => intro seen; exact ⟨List.nodup_nil, by simp [dedupKeptGo]⟩
  | cons a rest ih =>
    intro seen
    obtain ⟨d, u, y⟩ := a
    by_cases h : u ∈ seen
    · simpa [dedupKeptGo, h] using ih seen
    · have ihu := ih (u :: seen)
      simp only [dedupKeptGo, if_neg h, List.map_cons]
      constructor
      · exact List.nodup_cons.mpr
          ⟨fun hmem => (ihu.2 u hmem) (List.mem_cons_self u seen), ihu.1⟩
      · intro v hv
        rcases List.mem_cons.mp hv with h1 | h2
        · subst h1; exact h
        · exact fun hvseen => (ihu.2 v h2) (List.mem_cons_of_mem _ hvseen)

/-- C10: within one page at most one link Element is emitted per distinct
target URL: the hyperlink pass emits exactly the Markdown renderings of the
first occurrence of each URL (the seen-URL set keeps the kept URLs pairwise
distinct), so a second annotation targeting an already-emitted URL produces
no Element — as in the concrete two-annotation instance. -/
theorem hyperlink_dedup_unique :
    ∀ ls : List (String × String × Rat),
      dedupLinksGo [] ls =
        (dedupKeptGo [] ls).map (fun t => (t.2.2, "link", markdown_url t.1 t.2.1)) ∧
      ((dedupKeptGo [] ls).map (fun t => t.2.1)).Nodup ∧
      dedupLinksGo [] [("a", "http://x", 1), ("b", "http://x", 2)] =
        [(1, "link", "[a](http://x)")] := by
  intro ls
  exact ⟨dedupLinksGo_eq_map ls [], (dedupKeptGo_urls_nodup ls []).1, rfl⟩

theorem elemLE_trans : ∀ a b c : Elem, elemLE a b → elemLE b c → elemLE a c := by
  intro a b c h1 h2
  simp only [elemLE, decide_eq_true_eq] at h1 h2 ⊢
  exact le_trans h1 h2

theorem elemLE_total : ∀ a b : Elem, elemLE a b || elemLE b a := by
  intro a b
  simp only [elemLE, Bool.or_eq_true, decide_eq_true_eq]
  exact le_total a.1 b.1

/-- Stability of the sort, stated through filtering at a key: the elements
sharing any vertical position `k` come out of the sort in exactly the order
they went in. -/
theorem sortElems_filter_key (l : List Elem) (k : Rat) :
    (sortElems l).filter (fun e => decide (e.1 = k)) =
      l.filter (fun e => decide (e.1 = k)) := by
  have hmem : ∀ a ∈ l.filter (fun e : Elem => decide (e.1 = k)), a.1 = k := by
    intro a ha
    simpa using List.of_mem_filter ha
  have hpw : (l.filter (fun e : Elem => decide (e.1 = k))).Pairwise
      (fun a b => elemLE a b = true) :=
    List.pairwise_of_forall_mem_list
      (fun a ha b hb => by simp [elemLE, hmem a ha, hmem b hb])
  have h1 : List.Sublist (l.filter (fun e : Elem => decide (e.1 = k))) (sortElems l) :=
    List.sublist_mergeSort elemLE_trans elemLE_total hpw (List.filter_sublist l)
  have h2 : List.Perm ((sortElems l).filter (fun e : Elem => decide (e.1 = k)))
      (l.filter (fun e : Elem => decide (e.1 = k))) :=
    (List.mergeSort_perm l elemLE).filter _
  have hself : (l.filter (fun e : Elem => decide (e.1 = k))).filter
      (fun e : Elem => decide (e.1 = k)) = l.filter (fun e : Elem => decide (e.1 = k)) :=
    List.filter_eq_self.mpr (fun a ha => by simp [hmem a ha])
  have h3 : List.Sublist (l.filter (fun e : Elem => decide (e.1 = k)))
      ((sortElems l).filter (fun e : Elem => decide (e.1 = k))) :=
    hself ▸ h1.filter (fun e : Elem => decide (e.1 = k))
  exact (h3.eq_of_length h2.length_eq.symm).symm

/-- C3: after the sort step the page's Element sequence is non-decreasing in
vertical position, and Elements with equal vertical position keep the order
the extractors produced them in (the collection order is, by construction of
`collectElems`, tables, then text, then images, then annotations, then
links, then rules). -/
theorem process_page_sort_spec :
    ∀ (p : Page) (n : Nat) (odir : Option String),
      (sortElems (collectElems p n odir)).Pairwise (fun a b : Elem => a.1 ≤ b.1) ∧
      (∀ k : Rat,
        (sortElems (collectElems p n odir)).filter (fun e => decide (e.1 = k)) =
          (collectElems p n odir).filter (fun e => decide (e.1 = k))) := by
  intro p n odir
  constructor
  · exact (List.sorted_mergeSort elemLE_trans elemLE_total (collectElems p n odir)).imp
      (fun hab => by simpa [elemLE] using hab)
  · intro k
    exact sortElems_filter_key _ k

/-- C1 failing input: a page whose only text line is the bare URL
`http://x` and whose only link annotation also targets `http://x`. -/
def pageC1 : Page :=
  { blocks := [⟨0, ⟨0, 10, 100, 20⟩, [⟨[⟨"http://x", 12, 0⟩]⟩]⟩],
    tableCands := [],
    images := [],
    annots := [],
    links := [⟨"http://x", "http://x", 50⟩],
    drawings := [],
    width := 100 }

theorem c1_ft_size : (format_line [Span.mk "http://x" 12 0]).2.1 = 12 := by
  norm_num [format_line]

theorem c1_det :
    detect_heading (format_line [Span.mk "http://x" 12 0]).2.1 12
      (format_line [Span.mk "http://x" 12 0]).2.2 = "" := by
  rw [c1_ft_size, show (format_line [Span.mk "http://x" 12 0]).2.2 = false from rfl]
  norm_num [detect_heading]

theorem c1_line :
    lineElement 12 10 (Line.mk [Span.mk "http://x" 12 0]) =
      some (10, "text", "[http://x](http://x)") := by
  simp only [lineElement]
  rw [if_neg (by decide)]
  simp only [c1_det]
  rfl

theorem c1_avg : compute_avg_font_size pageC1.blocks = 12 := by
  norm_num [compute_avg_font_size, pageC1]

/-- C1: on `pageC1` the bare URL is linearised by the text pass into an
inline Markdown link, and the hyperlink pass — whose seen-URL set starts
empty and never contains text-derived URLs — emits a second link Element for
the same URL: the page's sorted Element stream contains two Markdown links
targeting `http://x`, where the claim (and the source's own comment) expect
exactly one. -/
theorem engine_bareUrl_hyperlink_double_emit :
    linkCountFor "http://x" (sortElems (collectElems pageC1 0 none)) = 2 := by
  have hcol : collectElems pageC1 0 none =
      [((10 : Rat), "text", "[http://x](http://x)"),
       ((50 : Rat), "link", "[http://x](http://x)")] := by
    simp only [collectElems, c1_avg]
    simp [pageC1, table_extract_all, textElemsGo, blockTextElems, c1_line,
      images_extract_all, imagesGo, annots_extract_all, extract_hyperlinks,
      dedupLinksGo, ruleElems, markdown_url]
    decide
  have hsorted : List.Pairwise (fun a b : Elem => elemLE a b = true)
      [((10 : Rat), "text", "[http://x](http://x)"),
       ((50 : Rat), "link", "[http://x](http://x)")] := by
    norm_num [List.pairwise_cons, elemLE]
  have hsort : sortElems
      [((10 : Rat), "text", "[http://x](http://x)"),
       ((50 : Rat), "link", "[http://x](http://x)")] =
      [((10 : Rat), "text", "[http://x](http://x)"),
       ((50 : Rat), "link", "[http://x](http://x)")] :=
    List.mergeSort_of_sorted hsorted
  rw [hcol, hsort]
  decide
